import Mathlib

/-!
Verification of the SoundCanvas sonification program (src/main.cpp).

The program reads a 4-channel PNG, converts it to a grayscale intensity
matrix and an alpha matrix (`processImage`), then `generateWavFile`
synthesizes one sine component per image column, sums them per output
sample, clamps, quantizes to 16-bit, trims leading and trailing silence
and writes a mono WAV file.  This file shallow-embeds the sample
synthesis (lines 130-181 of main.cpp), the silence trimmer
(lines 164-178) and the control flow of `main` and `processImage`, and
proves properties of these embeddings.
-/

open scoped BigOperators

namespace SoundCanvas

/-! ### Control-flow model of `main` and `processImage`

`main` (lines 14-42) checks the argument count and the `.png` extension,
calls `processImage`, and returns 1 if the processed image or alpha
channel is empty, else calls `generateWavFile`, prints the output-file
message and returns 0.  `processImage` (lines 44-101) returns an empty
matrix (failure) when decoding fails, when the image does not have
exactly 4 channels, or when any intermediate matrix is empty.
`generateWavFile` (lines 103-128) returns `void`: its early returns on
a dimension mismatch or on a failed `sf_open` do not reach `main`.
-/

/-- Observable branch conditions of one run of the program:
`argCount` is `argc`; `hasPngInName` is whether `argv[1]` contains
".png"; `decodeNonEmpty` is whether `cv::imread` succeeded;
`channels` is `image.channels()`; the three `NonEmpty` flags are the
emptiness checks on the alpha, grayscale and rotated matrices;
`dimsMatch` is `image.size() == alphaChannel.size()` inside
`generateWavFile`; `sinkOpens` is whether `sf_open` succeeded. -/
structure RunInput where
  argCount : ℕ
  hasPngInName : Bool
  decodeNonEmpty : Bool
  channels : ℕ
  alphaNonEmpty : Bool
  grayNonEmpty : Bool
  rotatedNonEmpty : Bool
  dimsMatch : Bool
  sinkOpens : Bool

/-- Whether `processImage` (lines 44-101) returns a non-empty result:
every early `return cv::Mat()` branch must be avoided. -/
def processImageOk (inp : RunInput) : Bool :=
  inp.decodeNonEmpty && (inp.channels == 4) && inp.alphaNonEmpty &&
    inp.grayNonEmpty && inp.rotatedNonEmpty

/-- The exit code of `main` (lines 14-42).  Note that the result of
`generateWavFile` is not consulted: once `processImage` succeeds, the
program returns 0 regardless of what happened inside
`generateWavFile`. -/
def mainExitCode (inp : RunInput) : ℕ :=
  if inp.argCount ≠ 2 then 1
  else if !inp.hasPngInName then 1
  else if !(processImageOk inp) then 1
  else 0

/-- Whether `main` prints the success message `"File Output: ..."`
(line 40): it does exactly when it reaches the end of `main`. -/
def reportsSuccess (inp : RunInput) : Bool :=
  (inp.argCount == 2) && inp.hasPngInName && processImageOk inp

/-! ### Silence trimmer (lines 164-178) -/

/-- The fixed silence threshold (line 164). -/
def silenceThreshold : ℤ := 500

/-- Whether a 16-bit sample counts as silence:
`std::abs(audioData[k]) < silenceThreshold` (lines 168 and 173). -/
def isSilent (x : ℤ) : Bool := decide (|x| < silenceThreshold)

/-- The trimming of lines 164-178: advance `start` over leading silent
samples, move `end` back over trailing silent samples, keep
`[start, end)`.  Dropping the leading silent run and then the trailing
silent run of the remainder computes the same sub-range. -/
def trim (xs : List ℤ) : List ℤ :=
  (((xs.dropWhile isSilent).reverse).dropWhile isSilent).reverse

noncomputable section

/-! ### Synthesis parameters and the pixel grid (lines 117-137) -/

/-- `sfInfo.samplerate` (line 120). -/
def sampleRate : ℕ := 44100

/-- `samplesPerRow = sampleRate / 10` (line 133). -/
def samplesPerRow : ℕ := sampleRate / 10

/-- `minFrequency` (line 135). -/
def minFrequency : ℝ := 200

/-- `maxFrequency` (line 136). -/
def maxFrequency : ℝ := 8000

/-- `frequencyRange = maxFrequency - minFrequency` (line 137). -/
def frequencyRange : ℝ := maxFrequency - minFrequency

/-- The divisor `image.cols - 1` of the frequency interpolation
(line 145), as the real number the double division uses. -/
def freqDivisor (cols : ℕ) : ℝ := (cols : ℝ) - 1

/-- The frequency mapper contract of the spec with the two frequency
bounds as parameters: `fmin + (fmax - fmin) * col / (cols - 1)`,
the expression of line 145. -/
def frequencyGen (fmin fmax : ℝ) (col cols : ℕ) : ℝ :=
  fmin + (fmax - fmin) * (col : ℝ) / freqDivisor cols

/-- The frequency of a column (line 145):
`minFrequency + frequencyRange * col / (image.cols - 1)`. -/
def frequency (col cols : ℕ) : ℝ :=
  minFrequency + frequencyRange * (col : ℝ) / freqDivisor cols

/-- The pixel data `generateWavFile` reads: `gray row col` is
`image.at<uchar>(row, col)` and `alpha row col` is
`alphaChannel.at<uchar>(row, col)`, both bytes in `[0, 255]`. -/
structure Grid where
  rows : ℕ
  cols : ℕ
  gray : ℕ → ℕ → ℕ
  alpha : ℕ → ℕ → ℕ

/-- Normalized grayscale intensity (line 146):
`image.at<uchar>(row, col) / 255.0`. -/
def intensity (g : Grid) (row col : ℕ) : ℝ := (g.gray row col : ℝ) / 255

/-- Normalized opacity (line 147):
`alphaChannel.at<uchar>(row, col) / 255.0`. -/
def opacity (g : Grid) (row col : ℕ) : ℝ := (g.alpha row col : ℝ) / 255

/-- The per-pixel amplitude factor (line 149):
`alpha < 0.1 ? 0.1 : alpha`. -/
def amplitude (a : ℝ) : ℝ := if a < 0.1 then 0.1 else a

/-- The absolute time of intra-row sample `i` of row `row` (line 141):
`(i + row * samplesPerRow) / sampleRate`. -/
def sampleTime (row i : ℕ) : ℝ :=
  ((i + row * samplesPerRow : ℕ) : ℝ) / (sampleRate : ℝ)

/-- The accumulated sample value before clamping (lines 142-151):
the sum over all columns of
`intensity * amplitude * sin(2 * pi * frequency * t)`. -/
def sampleValueRaw (g : Grid) (row i : ℕ) : ℝ :=
  ∑ col ∈ Finset.range g.cols,
    intensity g row col * amplitude (opacity g row col) *
      Real.sin (2 * Real.pi * frequency col g.cols * sampleTime row i)

/-- `std::clamp(sampleValue, -1.0, 1.0)` (line 153). -/
def clampSample (x : ℝ) : ℝ := if x < -1 then -1 else if 1 < x then 1 else x

/-- Conversion of a double to a 16-bit integer by
`static_cast<short>` (line 154): truncation toward zero. -/
def truncToZero (v : ℝ) : ℤ := if 0 ≤ v then ⌊v⌋ else ⌈v⌉

/-- The quantized sample appended at row `row`, intra-row index `i`
(line 154): `static_cast<short>(clamped * 32767)`. -/
def sample (g : Grid) (row i : ℕ) : ℤ :=
  truncToZero (clampSample (sampleValueRaw g row i) * 32767)

/-- The samples the inner loop of lines 140-155 appends for one row. -/
def rowSamples (g : Grid) (row : ℕ) : List ℤ :=
  (List.range samplesPerRow).map (fun i => sample g row i)

/-- The untrimmed sample buffer `audioData` built by the nested loops
of lines 139-162: the rows in order, each contributing
`samplesPerRow` samples. -/
def audioData (g : Grid) : List ℤ :=
  (List.range g.rows).flatMap (rowSamples g)

end

/-! ### Concrete data used in instance and counterexample theorems -/

/-- A one-row grid, 313 columns, with a single bright column at index
139 and a fully transparent alpha channel. -/
def gZeroOpacity : Grid where
  rows := 1
  cols := 313
  gray := fun _ col => if col = 139 then 255 else 0
  alpha := fun _ _ => 0

/-- A one-row grid, 313 columns, with a single bright column at index
139 and a solid alpha channel (all 255). -/
def gFullOpacity : Grid where
  rows := 1
  cols := 313
  gray := fun _ col => if col = 139 then 255 else 0
  alpha := fun _ _ => 255

/-- A grid whose intensity is zero everywhere. -/
def gAllZero : Grid where
  rows := 1
  cols := 2
  gray := fun _ _ => 0
  alpha := fun _ _ => 0

/-- A two-row grid with maximal intensity and opacity everywhere. -/
def gAllOn : Grid where
  rows := 2
  cols := 2
  gray := fun _ _ => 255
  alpha := fun _ _ => 255

/-- A run whose image decodes and processes correctly but whose output
WAV file cannot be opened (`sf_open` fails, line 125). -/
def runSinkFails : RunInput where
  argCount := 2
  hasPngInName := true
  decodeNonEmpty := true
  channels := 4
  alphaNonEmpty := true
  grayNonEmpty := true
  rotatedNonEmpty := true
  dimsMatch := true
  sinkOpens := false

/-- A run reaching `generateWavFile` with image and alpha matrices of
different sizes, so the dimension check of line 112 fails. -/
def runDimsMismatch : RunInput where
  argCount := 2
  hasPngInName := true
  decodeNonEmpty := true
  channels := 4
  alphaNonEmpty := true
  grayNonEmpty := true
  rotatedNonEmpty := true
  dimsMatch := false
  sinkOpens := true

/-- A run whose image decodes to 3 channels (no alpha). -/
def runThreeChannels : RunInput where
  argCount := 2
  hasPngInName := true
  decodeNonEmpty := true
  channels := 3
  alphaNonEmpty := true
  grayNonEmpty := true
  rotatedNonEmpty := true
  dimsMatch := true
  sinkOpens := true

/-! ### Helper lemmas -/

/-- The fixed number of samples per row: `44100 / 10 = 4410`. -/
theorem samplesPerRow_eq : samplesPerRow = 4410 := by
  norm_num [samplesPerRow, sampleRate]

/-- Dropping a silent run never removes an element on which the
predicate fails. -/
theorem mem_dropWhile_of_false {α : Type} (p : α → Bool) (l : List α) (x : α)
    (hx : x ∈ l) (hpx : p x = false) : x ∈ l.dropWhile p := by
  induction l with
  | nil => cases hx
  | cons a t ih =>
    rw [List.dropWhile_cons]
    cases hpa : p a with
    | false => simpa [hpa] using hx
    | true =>
      simp only [hpa, if_true]
      rcases List.mem_cons.mp hx with h | h
      · rw [h] at hpx; rw [hpa] at hpx; cases hpx
      · exact ih h

/-- The head of the list left after dropping a run fails the
predicate. -/
theorem head?_dropWhile_false {α : Type} (p : α → Bool) (l : List α) (x : α)
    (hx : (l.dropWhile p).head? = some x) : p x = false := by
  induction l with
  | nil => simp at hx
  | cons a t ih =>
    rw [List.dropWhile_cons] at hx
    cases hpa : p a with
    | true =>
      rw [hpa] at hx
      simp only [if_true] at hx
      exact ih hx
    | false =>
      rw [hpa] at hx
      simp only [Bool.false_eq_true, if_false, List.head?_cons,
        Option.some.injEq] at hx
      rw [← hx]
      exact hpa

/-- A list whose head fails the predicate is unchanged by dropping. -/
theorem dropWhile_eq_self_of_head {α : Type} (p : α → Bool) (l : List α) (x : α)
    (hx : l.head? = some x) (hpx : p x = false) : l.dropWhile p = l := by
  cases l with
  | nil => rfl
  | cons a t =>
    simp only [List.head?_cons, Option.some.injEq] at hx
    rw [List.dropWhile_cons, hx, hpx]
    simp

/-- Dropping a leading run keeps the last element. -/
theorem getLast?_dropWhile_of_ne_nil {α : Type} (p : α → Bool) (l : List α)
    (h : l.dropWhile p ≠ []) : (l.dropWhile p).getLast? = l.getLast? := by
  induction l with
  | nil => simp at h
  | cons a t ih =>
    rw [List.dropWhile_cons] at h ⊢
    cases hpa : p a with
    | false => simp
    | true =>
      simp only [hpa, eq_self_iff_true, if_true] at h ⊢
      have ht : t ≠ [] := by
        intro he
        rw [he] at h
        simp at h
      rw [ih h]
      cases t with
      | nil => exact absurd rfl ht
      | cons b u => rw [List.getLast?_cons_cons]

/-- Trimming a buffer of entirely silent samples yields the empty
buffer. -/
theorem trim_eq_nil_of_all_silent (xs : List ℤ)
    (h : ∀ x ∈ xs, isSilent x = true) : trim xs = [] := by
  unfold trim
  rw [List.dropWhile_eq_nil_iff.mpr h]
  rfl

/-- A buffer containing a sample above the silence threshold does not
trim to the empty buffer. -/
theorem trim_ne_nil_of_loud (xs : List ℤ) (x : ℤ) (hx : x ∈ xs)
    (hpx : isSilent x = false) : trim xs ≠ [] := by
  unfold trim
  intro hcontra
  have h1 : x ∈ xs.dropWhile isSilent := mem_dropWhile_of_false _ _ _ hx hpx
  have h2 : x ∈ (xs.dropWhile isSilent).reverse := List.mem_reverse.mpr h1
  have h3 : x ∈ ((xs.dropWhile isSilent).reverse).dropWhile isSilent :=
    mem_dropWhile_of_false _ _ _ h2 hpx
  rw [List.reverse_eq_nil_iff.mp hcontra] at h3
  cases h3

/-- One row contributes `samplesPerRow` samples. -/
theorem length_rowSamples (g : Grid) (row : ℕ) :
    (rowSamples g row).length = samplesPerRow := by
  simp [rowSamples]

/-- The first `n` rows contribute `n * samplesPerRow` samples. -/
theorem length_flatMap_rows (g : Grid) :
    ∀ n : ℕ, ((List.range n).flatMap (rowSamples g)).length = n * samplesPerRow := by
  intro n
  induction n with
  | zero => simp
  | succ m ih =>
    rw [List.range_succ, List.flatMap_append, List.length_append, ih]
    simp [length_rowSamples, Nat.succ_mul]

/-- The sample stored at buffer position `r * samplesPerRow + i` is the
sample computed for row `r`, intra-row index `i`. -/
theorem getElem?_flatMap_rows (g : Grid) :
    ∀ n r i : ℕ, r < n → i < samplesPerRow →
      ((List.range n).flatMap (rowSamples g))[r * samplesPerRow + i]? =
        some (sample g r i) := by
  intro n
  induction n with
  | zero => intro r i hr _; exact absurd hr (Nat.not_lt_zero r)
  | succ m ih =>
    intro r i hr hi
    rw [List.range_succ, List.flatMap_append]
    by_cases hrm : r < m
    · have h1 : r * samplesPerRow + i < (r + 1) * samplesPerRow := by
        rw [Nat.succ_mul]
        exact Nat.add_lt_add_left hi _
      have h2 : (r + 1) * samplesPerRow ≤ m * samplesPerRow :=
        Nat.mul_le_mul_right _ hrm
      have hlen : r * samplesPerRow + i <
          ((List.range m).flatMap (rowSamples g)).length := by
        rw [length_flatMap_rows]
        exact lt_of_lt_of_le h1 h2
      rw [List.getElem?_append, if_pos hlen]
      exact ih r i hrm hi
    · have hrm2 : r = m := by omega
      subst hrm2
      have hlen : ((List.range r).flatMap (rowSamples g)).length ≤
          r * samplesPerRow + i := by
        rw [length_flatMap_rows]
        exact Nat.le_add_right _ _
      rw [List.getElem?_append_right hlen, length_flatMap_rows,
        Nat.add_sub_cancel_left]
      simp only [List.flatMap_cons, List.flatMap_nil, List.append_nil,
        rowSamples]
      rw [List.getElem?_map, List.getElem?_range hi]
      rfl

/-- The clamped sample value lies in the clamping interval. -/
theorem clampSample_mem (x : ℝ) : -1 ≤ clampSample x ∧ clampSample x ≤ 1 := by
  unfold clampSample
  split_ifs with h1 h2
  · exact ⟨le_refl _, by norm_num⟩
  · exact ⟨by norm_num, le_refl _⟩
  · push_neg at h1 h2
    exact ⟨h1, h2⟩

/-! ### Claim theorems -/

/-- Claim C3 (code_bug evidence): a run in which the audio-sink open
fails, and a run in which the dimension check inside `generateWavFile`
fails, both still exit with code 0 and still print the success message,
because `generateWavFile` returns `void` and `main` ignores its
outcome. -/
theorem sink_or_dims_failure_still_reports_success :
    mainExitCode runSinkFails = 0 ∧ reportsSuccess runSinkFails = true ∧
    mainExitCode runDimsMismatch = 0 ∧ reportsSuccess runDimsMismatch = true := by
  decide

/-- Claim C6 (counterexample): the frequency mapper of line 145 is not
guarded: at `cols = 1` the divisor `cols - 1` it divides by is zero, so
the evaluation does divide by zero (in IEEE doubles, a NaN). -/
theorem freqDivisor_one_col_eq_zero : freqDivisor 1 = 0 := by
  norm_num [freqDivisor]

/-- Claim C6 (amended): the mapper evaluates
`minFrequency + frequencyRange * col / (cols - 1)` unconditionally;
its divisor is nonzero for every `cols ≥ 2`, so only such grids avoid
a division by zero. -/
theorem freqDivisor_ne_zero_of_two_le (cols : ℕ) (h : 2 ≤ cols) :
    freqDivisor cols ≠ 0 := by
  unfold freqDivisor
  have h2 : (2 : ℝ) ≤ (cols : ℝ) := by exact_mod_cast h
  intro hc
  linarith

/-- Witness for the amended claim C6 at `cols = 2`. -/
theorem freqDivisor_ne_zero_of_two_le_inst : freqDivisor 2 ≠ 0 :=
  freqDivisor_ne_zero_of_two_le 2 (by norm_num)

/-- Claim C7: trimming is idempotent: applying the trim of
lines 164-178 to an already-trimmed buffer returns it unchanged. -/
theorem trim_idempotent (xs : List ℤ) : trim (trim xs) = trim xs := by
  have hdef : trim xs =
      (((xs.dropWhile isSilent).reverse).dropWhile isSilent).reverse := rfl
  by_cases hb : ((xs.dropWhile isSilent).reverse).dropWhile isSilent = []
  · rw [hdef, hb]
    rfl
  · obtain ⟨y, hy⟩ : ∃ y,
        (((xs.dropWhile isSilent).reverse).dropWhile isSilent).head? = some y := by
      obtain ⟨c, u, hcu⟩ := List.exists_cons_of_ne_nil hb
      exact ⟨c, by rw [hcu]; rfl⟩
    have hysil : isSilent y = false := head?_dropWhile_false _ _ _ hy
    have hylast : (trim xs).getLast? = some y := by
      rw [hdef, List.getLast?_reverse]
      exact hy
    have hanil : xs.dropWhile isSilent ≠ [] := by
      intro he
      rw [he] at hb
      simp at hb
    obtain ⟨z, hz⟩ : ∃ z, (xs.dropWhile isSilent).head? = some z := by
      obtain ⟨c, u, hcu⟩ := List.exists_cons_of_ne_nil hanil
      exact ⟨c, by rw [hcu]; rfl⟩
    have hzsil : isSilent z = false := head?_dropWhile_false _ _ _ hz
    have hzhead : (trim xs).head? = some z := by
      rw [hdef, List.head?_reverse, getLast?_dropWhile_of_ne_nil _ _ hb,
        List.getLast?_reverse]
      exact hz
    have e1 : (trim xs).dropWhile isSilent = trim xs :=
      dropWhile_eq_self_of_head _ _ _ hzhead hzsil
    have e2 : ((trim xs).reverse).dropWhile isSilent = (trim xs).reverse := by
      apply dropWhile_eq_self_of_head _ _ y _ hysil
      rw [List.head?_reverse]
      exact hylast
    show (((trim xs).dropWhile isSilent).reverse.dropWhile isSilent).reverse =
      trim xs
    rw [e1, e2, List.reverse_reverse]

/-- Claim C8: the frequency mapper maps column 0 exactly to the minimum
frequency and column `cols - 1` exactly to the maximum frequency, for
every `cols ≥ 2` and every pair of bounds; in particular the mapper of
line 145 with the fixed bounds 200 Hz and 8000 Hz does so. -/
theorem frequency_endpoints (fmin fmax : ℝ) (cols : ℕ) (h2 : 2 ≤ cols)
    (_hlt : fmin < fmax) :
    frequencyGen fmin fmax 0 cols = fmin ∧
    frequencyGen fmin fmax (cols - 1) cols = fmax ∧
    frequency 0 cols = minFrequency ∧
    frequency (cols - 1) cols = maxFrequency := by
  have hne : freqDivisor cols ≠ 0 := by
    unfold freqDivisor
    have hc2 : (2 : ℝ) ≤ (cols : ℝ) := by exact_mod_cast h2
    intro hc
    linarith
  have key : ∀ a b : ℝ, frequencyGen a b 0 cols = a ∧
      frequencyGen a b (cols - 1) cols = b := by
    intro a b
    constructor
    · simp [frequencyGen]
    · unfold frequencyGen
      have hcast : ((cols - 1 : ℕ) : ℝ) = (cols : ℝ) - 1 := by
        rw [Nat.cast_sub (by omega : 1 ≤ cols), Nat.cast_one]
      have hdiv : (cols : ℝ) - 1 = freqDivisor cols := rfl
      rw [hcast, hdiv, mul_div_assoc, div_self hne, mul_one]
      ring
  have hfreq : ∀ col : ℕ, frequency col cols =
      frequencyGen minFrequency maxFrequency col cols := fun _ => rfl
  refine ⟨(key fmin fmax).1, (key fmin fmax).2, ?_, ?_⟩
  · rw [hfreq]; exact (key minFrequency maxFrequency).1
  · rw [hfreq]; exact (key minFrequency maxFrequency).2

/-- Witness for claim C8 with the fixed bounds of the program and `cols = 2`. -/
theorem frequency_endpoints_inst :
    frequencyGen 200 8000 0 2 = 200 ∧ frequencyGen 200 8000 (2 - 1) 2 = 8000 :=
  ⟨(frequency_endpoints 200 8000 2 (by norm_num) (by norm_num)).1,
   (frequency_endpoints 200 8000 2 (by norm_num) (by norm_num)).2.1⟩

/-- Claim C9: an image whose channel count is not 4 makes
`processImage` fail (lines 54-58), and a run that passed the CLI checks
then exits with code 1 (lines 30-32). -/
theorem non_four_channel_rejected (inp : RunInput) (h : inp.channels ≠ 4) :
    processImageOk inp = false ∧
    (inp.argCount = 2 → inp.hasPngInName = true → mainExitCode inp = 1) := by
  have hb : (inp.channels == 4) = false := by
    simp [h]
  constructor
  · simp [processImageOk, hb]
  · intro h1 h2
    simp [mainExitCode, h1, h2, processImageOk, hb]

/-- Witness for claim C9 on a 3-channel decode. -/
theorem non_four_channel_rejected_inst :
    processImageOk runThreeChannels = false ∧
    mainExitCode runThreeChannels = 1 :=
  ⟨(non_four_channel_rejected runThreeChannels (by decide)).1,
   (non_four_channel_rejected runThreeChannels (by decide)).2 rfl rfl⟩

/-- Claim C10: every quantized sample lies in `[-32767, 32767]`: the
clamp of line 153 bounds the value in `[-1, 1]` and the truncation of
line 154 therefore never reaches -32768 nor overflows. -/
theorem sample_within_int16_range (g : Grid) (row i : ℕ) :
    -32767 ≤ sample g row i ∧ sample g row i ≤ 32767 := by
  have hc := clampSample_mem (sampleValueRaw g row i)
  unfold sample truncToZero
  have hvlo : (-32767 : ℝ) ≤ clampSample (sampleValueRaw g row i) * 32767 := by
    nlinarith [hc.1]
  have hvhi : clampSample (sampleValueRaw g row i) * 32767 ≤ 32767 := by
    nlinarith [hc.2]
  split_ifs with h0
  · constructor
    · have hf : (0 : ℤ) ≤ ⌊clampSample (sampleValueRaw g row i) * 32767⌋ :=
        Int.floor_nonneg.mpr h0
      omega
    · have hf : ⌊clampSample (sampleValueRaw g row i) * 32767⌋ < 32768 := by
        rw [Int.floor_lt]
        push_cast
        linarith
      omega
  · push_neg at h0
    constructor
    · have hf : (-32768 : ℤ) < ⌈clampSample (sampleValueRaw g row i) * 32767⌉ := by
        rw [Int.lt_ceil]
        push_cast
        linarith
      omega
    · have hf : ⌈clampSample (sampleValueRaw g row i) * 32767⌉ ≤ 0 := by
        rw [show (0 : ℤ) = ((0 : ℤ) : ℤ) from rfl]
        exact Int.ceil_le.mpr (by push_cast; linarith)
      omega

/-- Claim C1: for every valid grid the untrimmed sample value computed
for row `r`, intra-row index `i` (lines 139-153), before quantization,
is the clamp to `[-1, 1]` of the sum over all columns of
`intensity * max(opacity, 0.1) * sin(2 pi frequency t)` with
`t = (i + r * samplesPerRow) / sampleRate`: the conditional of line 149
implements the opacity floor `max(opacity, 0.1)`. -/
theorem clamped_sample_matches_weighted_sum (g : Grid) (r i : ℕ)
    (_hrows : 1 ≤ g.rows) (_hcols : 2 ≤ g.cols)
    (_hint : ∀ a b : ℕ, 0 ≤ intensity g a b ∧ intensity g a b ≤ 1)
    (_hop : ∀ a b : ℕ, 0 ≤ opacity g a b ∧ opacity g a b ≤ 1)
    (_hr : r < g.rows) (_hi : i < samplesPerRow) :
    clampSample (sampleValueRaw g r i) =
      clampSample (∑ col ∈ Finset.range g.cols,
        intensity g r col * max (opacity g r col) 0.1 *
          Real.sin (2 * Real.pi * frequency col g.cols *
            (((i + r * samplesPerRow : ℕ) : ℝ) / (sampleRate : ℝ)))) := by
  have hamp : ∀ a : ℝ, amplitude a = max a 0.1 := by
    intro a
    unfold amplitude
    by_cases h : a < 0.1
    · rw [if_pos h, max_eq_right h.le]
    · push_neg at h
      rw [if_neg (not_lt.mpr h), max_eq_left h]
  unfold sampleValueRaw sampleTime
  congr 1
  apply Finset.sum_congr rfl
  intro c _
  rw [hamp]

/-- Witness for claim C1 on the all-bright two-row grid at row 0,
index 0. -/
theorem clamped_sample_matches_weighted_sum_inst :
    clampSample (sampleValueRaw gAllOn 0 0) =
      clampSample (∑ col ∈ Finset.range gAllOn.cols,
        intensity gAllOn 0 col * max (opacity gAllOn 0 col) 0.1 *
          Real.sin (2 * Real.pi * frequency col gAllOn.cols *
            (((0 + 0 * samplesPerRow : ℕ) : ℝ) / (sampleRate : ℝ)))) :=
  clamped_sample_matches_weighted_sum gAllOn 0 0 (by norm_num [gAllOn])
    (by norm_num [gAllOn]) (fun a b => by norm_num [intensity, gAllOn])
    (fun a b => by norm_num [opacity, gAllOn]) (by norm_num [gAllOn])
    (by rw [samplesPerRow_eq]; norm_num)

/-- Claim C2: the untrimmed buffer holds exactly
`rows * samplesPerRow` samples, row `r` occupies the contiguous span
starting at `r * samplesPerRow`, the time argument is strictly
increasing in buffer position (never reset per row), and a 2-row grid
yields 8820 samples. -/
theorem audioData_layout (g : Grid) :
    (audioData g).length = g.rows * samplesPerRow ∧
    (∀ r i : ℕ, r < g.rows → i < samplesPerRow →
      (audioData g)[r * samplesPerRow + i]? = some (sample g r i)) ∧
    (∀ r1 i1 r2 i2 : ℕ, r1 * samplesPerRow + i1 < r2 * samplesPerRow + i2 →
      sampleTime r1 i1 < sampleTime r2 i2) ∧
    (g.rows = 2 → (audioData g).length = 8820) := by
  have hlen : (audioData g).length = g.rows * samplesPerRow :=
    length_flatMap_rows g g.rows
  refine ⟨hlen, ?_, ?_, ?_⟩
  · intro r i hr hi
    exact getElem?_flatMap_rows g g.rows r i hr hi
  · intro r1 i1 r2 i2 hlt
    unfold sampleTime
    have h1 : i1 + r1 * samplesPerRow < i2 + r2 * samplesPerRow := by
      rw [Nat.add_comm i1, Nat.add_comm i2]
      exact hlt
    have h2 : ((i1 + r1 * samplesPerRow : ℕ) : ℝ) <
        ((i2 + r2 * samplesPerRow : ℕ) : ℝ) := by
      exact_mod_cast h1
    have h3 : (0 : ℝ) < ((sampleRate : ℕ) : ℝ) := by
      norm_num [sampleRate]
    exact (div_lt_div_iff_of_pos_right h3).mpr h2
  · intro h2
    rw [hlen, h2, samplesPerRow_eq]

/-- Witness for claim C2 on the two-row grid: position lookup, strict
time growth, and the 8820-sample total. -/
theorem audioData_layout_inst :
    (audioData gAllOn)[0 * samplesPerRow + 1]? = some (sample gAllOn 0 1) ∧
    sampleTime 0 1 < sampleTime 1 0 ∧
    (audioData gAllOn).length = 8820 :=
  ⟨(audioData_layout gAllOn).2.1 0 1 (by norm_num [gAllOn])
      (by rw [samplesPerRow_eq]; norm_num),
   (audioData_layout gAllOn).2.2.1 0 1 1 0 (by rw [samplesPerRow_eq]; norm_num),
   (audioData_layout gAllOn).2.2.2 rfl⟩

/-- The frequency of the bright column of the pulse grids:
`200 + 7800 * 139 / 312 = 3675` Hz. -/
theorem frequency_pulse : frequency 139 313 = 3675 := by
  simp only [frequency, freqDivisor, frequencyRange, minFrequency, maxFrequency]
  push_cast
  norm_num

/-- The time of the second sample of the buffer. -/
theorem sampleTime_pulse : sampleTime 0 1 = 1 / 44100 := by
  unfold sampleTime sampleRate
  norm_num

/-- The sine factor of the bright column at the second sample:
the argument is exactly pi / 6. -/
theorem sin_pulse :
    Real.sin (2 * Real.pi * frequency 139 313 * sampleTime 0 1) = 1 / 2 := by
  rw [frequency_pulse, sampleTime_pulse]
  have harg : 2 * Real.pi * 3675 * (1 / 44100) = Real.pi / 6 := by
    field_simp
    ring
  rw [harg, Real.sin_pi_div_six]

/-- The raw sample value of the transparent pulse grid at position 1:
only column 139 contributes, with the floored amplitude 0.1. -/
theorem sampleValueRaw_gZeroOpacity :
    sampleValueRaw gZeroOpacity 0 1 = 1 / 20 := by
  unfold sampleValueRaw
  have hcols : gZeroOpacity.cols = 313 := rfl
  rw [hcols]
  rw [Finset.sum_eq_single_of_mem 139 (Finset.mem_range.mpr (by norm_num))
    (fun b _ hb => by
      have hzero : intensity gZeroOpacity 0 b = 0 := by
        simp [intensity, gZeroOpacity, hb]
      rw [hzero, zero_mul, zero_mul])]
  have hint : intensity gZeroOpacity 0 139 = 1 := by
    norm_num [intensity, gZeroOpacity]
  have hop : opacity gZeroOpacity 0 139 = 0 := by
    norm_num [opacity, gZeroOpacity]
  have hamp : amplitude 0 = 0.1 := by
    norm_num [amplitude]
  rw [hint, hop, hamp, sin_pulse]
  norm_num

/-- The raw sample value of the solid-alpha pulse grid at position 1:
only column 139 contributes, with full amplitude. -/
theorem sampleValueRaw_gFullOpacity :
    sampleValueRaw gFullOpacity 0 1 = 1 / 2 := by
  unfold sampleValueRaw
  have hcols : gFullOpacity.cols = 313 := rfl
  rw [hcols]
  rw [Finset.sum_eq_single_of_mem 139 (Finset.mem_range.mpr (by norm_num))
    (fun b _ hb => by
      have hzero : intensity gFullOpacity 0 b = 0 := by
        simp [intensity, gFullOpacity, hb]
      rw [hzero, zero_mul, zero_mul])]
  have hint : intensity gFullOpacity 0 139 = 1 := by
    norm_num [intensity, gFullOpacity]
  have hop : opacity gFullOpacity 0 139 = 1 := by
    norm_num [opacity, gFullOpacity]
  have hamp : amplitude 1 = 1 := by
    norm_num [amplitude]
  rw [hint, hop, hamp, sin_pulse]
  norm_num

/-- The quantized sample of the transparent pulse grid at position 1. -/
theorem sample_gZeroOpacity : sample gZeroOpacity 0 1 = 1638 := by
  unfold sample
  rw [sampleValueRaw_gZeroOpacity]
  have hcl : clampSample (1 / 20 : ℝ) = 1 / 20 := by
    unfold clampSample
    norm_num
  rw [hcl]
  unfold truncToZero
  rw [if_pos (by norm_num : (0 : ℝ) ≤ (1 / 20 : ℝ) * 32767)]
  rw [Int.floor_eq_iff]
  constructor
  · push_cast
    norm_num
  · push_cast
    norm_num

/-- The quantized sample of the solid-alpha pulse grid at position 1:
truncation of 16383.5. -/
theorem sample_gFullOpacity : sample gFullOpacity 0 1 = 16383 := by
  unfold sample
  rw [sampleValueRaw_gFullOpacity]
  have hcl : clampSample (1 / 2 : ℝ) = 1 / 2 := by
    unfold clampSample
    norm_num
  rw [hcl]
  unfold truncToZero
  rw [if_pos (by norm_num : (0 : ℝ) ≤ (1 / 2 : ℝ) * 32767)]
  rw [Int.floor_eq_iff]
  constructor
  · push_cast
    norm_num
  · push_cast
    norm_num

/-- Claim C4 (counterexample): the grid `gZeroOpacity` has opacity 0 at
every pixel, yet its buffer does not trim to empty: line 149 floors the
zero opacity to amplitude 0.1 and the sample at position 1 is 1638,
above the silence threshold 500. -/
theorem zero_opacity_grid_not_silent :
    trim (audioData gZeroOpacity) ≠ [] ∧ opacity gZeroOpacity 0 139 = 0 := by
  constructor
  · apply trim_ne_nil_of_loud _ (sample gZeroOpacity 0 1)
    · unfold audioData
      apply List.mem_flatMap.mpr
      refine ⟨0, ?_, ?_⟩
      · exact List.mem_range.mpr (by norm_num [gZeroOpacity])
      · unfold rowSamples
        exact List.mem_map.mpr
          ⟨1, List.mem_range.mpr (by rw [samplesPerRow_eq]; norm_num), rfl⟩
    · rw [sample_gZeroOpacity]
      decide
  · norm_num [opacity, gZeroOpacity]

/-- Claim C4 (amended): a grid whose intensity is zero everywhere
synthesizes only zero samples, and its buffer trims to the empty
buffer; a grid whose opacity is zero everywhere is floored to effective
opacity 0.1 by line 149 and need not be silent. -/
theorem zero_intensity_grid_trims_to_nil (g : Grid)
    (h : ∀ r c : ℕ, intensity g r c = 0) : trim (audioData g) = [] := by
  apply trim_eq_nil_of_all_silent
  intro x hx
  obtain ⟨row, hrow, hx2⟩ := List.mem_flatMap.mp hx
  unfold rowSamples at hx2
  obtain ⟨i, hi, hx3⟩ := List.mem_map.mp hx2
  have hraw : sampleValueRaw g row i = 0 := by
    unfold sampleValueRaw
    apply Finset.sum_eq_zero
    intro c _
    rw [h row c, zero_mul, zero_mul]
  have hsamp : sample g row i = 0 := by
    unfold sample
    rw [hraw]
    have hcl : clampSample (0 : ℝ) = 0 := by
      unfold clampSample
      norm_num
    rw [hcl, zero_mul]
    simp [truncToZero]
  rw [← hx3, hsamp]
  decide

/-- Witness for the amended claim C4 on the all-zero grid. -/
theorem zero_intensity_grid_trims_to_nil_inst :
    trim (audioData gAllZero) = [] :=
  zero_intensity_grid_trims_to_nil gAllZero
    (fun r c => by norm_num [intensity, gAllZero])

/-- Claim C5 (counterexample): on the solid-alpha pulse grid the clamped
sample value at position 1 is exactly 1/2, and line 154 appends
`static_cast<short>(16383.5) = 16383`, while rounding would give
16384. -/
theorem sample_ne_round :
    sample gFullOpacity 0 1 = 16383 ∧
    round (clampSample (sampleValueRaw gFullOpacity 0 1) * 32767) = 16384 := by
  refine ⟨sample_gFullOpacity, ?_⟩
  rw [sampleValueRaw_gFullOpacity]
  have hcl : clampSample (1 / 2 : ℝ) = 1 / 2 := by
    unfold clampSample
    norm_num
  rw [hcl, round_eq]
  have harg : (1 / 2 : ℝ) * 32767 + 1 / 2 = ((16384 : ℤ) : ℝ) := by
    push_cast
    norm_num
  rw [harg, Int.floor_intCast]

/-- Claim C5 (amended): the quantization of line 154 is truncation
toward zero, not rounding: the appended sample has the same sign as the
scaled clamped value, its magnitude stays within that of the scaled value, and
is within 1 of it. -/
theorem sample_is_trunc_toward_zero (g : Grid) (row i : ℕ) :
    |((sample g row i : ℤ) : ℝ)| ≤ |clampSample (sampleValueRaw g row i) * 32767| ∧
    |clampSample (sampleValueRaw g row i) * 32767| < |((sample g row i : ℤ) : ℝ)| + 1 ∧
    0 ≤ ((sample g row i : ℤ) : ℝ) *
      (clampSample (sampleValueRaw g row i) * 32767) := by
  unfold sample
  set v := clampSample (sampleValueRaw g row i) * 32767
  unfold truncToZero
  split_ifs with h0
  · have h3 : (0 : ℝ) ≤ ((⌊v⌋ : ℤ) : ℝ) := by
      exact_mod_cast Int.floor_nonneg.mpr h0
    rw [abs_of_nonneg h0, abs_of_nonneg h3]
    exact ⟨Int.floor_le v, Int.lt_floor_add_one v, mul_nonneg h3 h0⟩
  · push_neg at h0
    have h4 : ((⌈v⌉ : ℤ) : ℝ) ≤ 0 := by
      have : ⌈v⌉ ≤ (0 : ℤ) := Int.ceil_le.mpr (by exact_mod_cast h0.le)
      exact_mod_cast this
    rw [abs_of_nonpos h0.le, abs_of_nonpos h4]
    refine ⟨by linarith [Int.le_ceil v], ?_, ?_⟩
    · have h5 := Int.ceil_lt_add_one v
      linarith
    · have h6 := mul_nonneg (neg_nonneg.mpr h4) (neg_nonneg.mpr h0.le)
      rwa [neg_mul_neg] at h6

end SoundCanvas
